import Mathlib

/-!
Shallow embedding of the Gaza-Care-Hub storage and export core
(`src/services/storage.ts`, `src/services/export.ts`, `src/types/index.ts`).

The IndexedDB table of patients is modelled as a list of `Patient`
records; Dexie operations become pure functions on that list.  The two
sources of nondeterminism — `crypto.randomUUID()` and `Date.now()` — are
passed in as explicit parameters, one per call site in the source.
Fallible operations return `Except String`, carrying the wrapped error
message the source throws.
-/

namespace GazaCareHub

/-- Type `TriageLevel` from `src/types/index.ts`. -/
inductive TriageLevel where
  | Critical
  | Urgent
  | Stable
deriving DecidableEq, Repr

/-- The TypeScript string literal behind each `TriageLevel` value. -/
def TriageLevel.toStr : TriageLevel → String
  | .Critical => "Critical"
  | .Urgent => "Urgent"
  | .Stable => "Stable"

/-- Type `PatientStatus` from `src/types/index.ts`. -/
inductive PatientStatus where
  | Waiting
  | InTreatment
  | Treated
  | Discharged
  | Transferred
deriving DecidableEq, Repr

/-- The TypeScript string literal behind each `PatientStatus` value. -/
def PatientStatus.toStr : PatientStatus → String
  | .Waiting => "Waiting"
  | .InTreatment => "In Treatment"
  | .Treated => "Treated"
  | .Discharged => "Discharged"
  | .Transferred => "Transferred"

/-- The `changeType` union of `StatusChange` in `src/types/index.ts`. -/
inductive ChangeType where
  | status
  | triage
  | treatment
  | notes
  | vitals
deriving DecidableEq, Repr

/-- The `shiftType` union of `HandoverNote` in `src/types/index.ts`. -/
inductive ShiftType where
  | outgoing
  | incoming
deriving DecidableEq, Repr

/-- The `priority` union of `HandoverNote` in `src/types/index.ts`. -/
inductive HandoverPriority where
  | high
  | medium
  | low
deriving DecidableEq, Repr

/-- The `StatusChange` interface from `src/types/index.ts`. -/
structure StatusChange where
  id : String
  patientId : String
  timestamp : Nat
  changeType : ChangeType
  previousValue : String
  newValue : String
  staffName : Option String
  isHighlighted : Bool
deriving DecidableEq, Repr

/-- The `HandoverNote` interface from `src/types/index.ts`. -/
structure HandoverNote where
  id : String
  patientId : String
  timestamp : Nat
  staffName : String
  shiftType : ShiftType
  summary : String
  criticalUpdates : List String
  keyObservations : String
  actionItems : List String
  priority : HandoverPriority
deriving DecidableEq, Repr

/-- The `Patient` interface from `src/types/index.ts`.  TypeScript optional
fields (`field?:`) become `Option` fields; the optional arrays
`handoverNotes` and `statusChanges` stay `Option (List _)` so the
source's `x || []` defaulting can be modelled faithfully. -/
structure Patient where
  id : String
  name : String
  age : Nat
  symptoms : List String
  condition : String
  triageLevel : TriageLevel
  timestamp : Nat
  status : PatientStatus
  notes : String
  lastUpdated : Nat
  patientId : Option String
  mainComplaint : Option String
  medicalHistory : Option String
  examinationFindings : Option String
  provisionalDiagnosis : Option String
  treatmentPlan : Option String
  handoverNotes : Option (List HandoverNote)
  statusChanges : Option (List StatusChange)
deriving DecidableEq, Repr

/-- Model of `Partial<Patient>`: every field optional, `none` meaning the key is
absent from the update object. -/
structure PatientUpdate where
  id : Option String := none
  name : Option String := none
  age : Option Nat := none
  symptoms : Option (List String) := none
  condition : Option String := none
  triageLevel : Option TriageLevel := none
  timestamp : Option Nat := none
  status : Option PatientStatus := none
  notes : Option String := none
  lastUpdated : Option Nat := none
  patientId : Option String := none
  mainComplaint : Option String := none
  medicalHistory : Option String := none
  examinationFindings : Option String := none
  provisionalDiagnosis : Option String := none
  treatmentPlan : Option String := none
  handoverNotes : Option (List HandoverNote) := none
  statusChanges : Option (List StatusChange) := none
deriving DecidableEq, Repr

/-- Model of `Omit<Patient, "id" | "timestamp">`, the argument of `addPatient`. -/
structure NewPatientInput where
  name : String
  age : Nat
  symptoms : List String
  condition : String
  triageLevel : TriageLevel
  status : PatientStatus
  notes : String
  lastUpdated : Nat
  patientId : Option String := none
  mainComplaint : Option String := none
  medicalHistory : Option String := none
  examinationFindings : Option String := none
  provisionalDiagnosis : Option String := none
  treatmentPlan : Option String := none
  handoverNotes : Option (List HandoverNote) := none
  statusChanges : Option (List StatusChange) := none
deriving DecidableEq, Repr

/-- Model of `Omit<HandoverNote, "id" | "timestamp" | "patientId">`, the argument
of `addHandoverNote`. -/
structure HandoverNoteInput where
  staffName : String
  shiftType : ShiftType
  summary : String
  criticalUpdates : List String
  keyObservations : String
  actionItems : List String
  priority : HandoverPriority
deriving DecidableEq, Repr

/-- The `patients` table of `TriageDatabase`, as the list of stored
records. -/
structure Store where
  patients : List Patient
deriving DecidableEq, Repr

/-- Dexie `db.patients.get(id)`: primary-key lookup. -/
def getById (st : Store) (id : String) : Option Patient :=
  st.patients.find? (fun p => p.id == id)

/-- Lexicographic order on character lists, the IndexedDB comparison of
string keys. -/
def charsLe : List Char → List Char → Bool
  | [], _ => true
  | _ :: _, [] => false
  | a :: as, b :: bs => if a = b then charsLe as bs else a.toNat ≤ b.toNat

/-- IndexedDB order on string keys. -/
def strLe (a b : String) : Bool :=
  charsLe a.toList b.toList

/-- IndexedDB index order on `timestamp`: ascending by timestamp, ties
ordered by the primary key `id`. -/
def indexLe (a b : Patient) : Bool :=
  if a.timestamp = b.timestamp then strLe a.id b.id else a.timestamp < b.timestamp

/-- Stable insertion into a sorted list: `x` goes in front of the first
element it may precede.  Building block of `jsSort`. -/
def jsInsert (le : α → α → Bool) (x : α) : List α → List α
  | [] => [x]
  | y :: ys => if le x y then x :: y :: ys else y :: jsInsert le x ys

/-- JavaScript `Array.prototype.sort(cmp)` for a comparator that is a
total preorder: a stable sort, modelled as stable insertion sort (for a
total preorder the result of any stable sort is unique, so this is the
sort the engine performs). -/
def jsSort (le : α → α → Bool) : List α → List α
  | [] => []
  | x :: xs => jsInsert le x (jsSort le xs)

/-- Operation `getPatients`: `db.patients.orderBy("timestamp").reverse().toArray()`
— all records, newest first. -/
def getPatients (st : Store) : List Patient :=
  (jsSort indexLe st.patients).reverse

/-- Operation `addPatient`: builds the full record (spread of the input, then the
overriding keys `id`, `timestamp`, `status: 'Waiting'`, `notes: ''`,
`lastUpdated: timestamp`) and `db.patients.add`s it.  Dexie `add` fails
on a duplicate primary key; the catch block wraps the message.
`newId` stands for `crypto.randomUUID()` and `now` for `Date.now()`. -/
def addPatient (newId : String) (now : Nat) (st : Store) (inp : NewPatientInput) :
    Except String (String × Store) :=
  let fullPatient : Patient :=
    { name := inp.name
      age := inp.age
      symptoms := inp.symptoms
      condition := inp.condition
      triageLevel := inp.triageLevel
      patientId := inp.patientId
      mainComplaint := inp.mainComplaint
      medicalHistory := inp.medicalHistory
      examinationFindings := inp.examinationFindings
      provisionalDiagnosis := inp.provisionalDiagnosis
      treatmentPlan := inp.treatmentPlan
      handoverNotes := inp.handoverNotes
      statusChanges := inp.statusChanges
      id := newId
      timestamp := now
      status := .Waiting
      notes := ""
      lastUpdated := now }
  if st.patients.any (fun p => p.id == newId) then
    .error "Failed to add patient: ConstraintError"
  else
    .ok (newId, ⟨st.patients ++ [fullPatient]⟩)

/-- Operation `deletePatient`: `db.patients.delete(id)` (a no-op when the key is
absent), then a defensive `get` — error only if the record is still
retrievable. -/
def deletePatient (st : Store) (id : String) : Except String Store :=
  let st' : Store := ⟨st.patients.filter (fun p => !(p.id == id))⟩
  match getById st' id with
  | some _ => .error ("Failed to delete patient: Patient with ID " ++ id ++ " could not be deleted")
  | none => .ok st'

/-- JavaScript truthiness of an optional string value: the key is
present and the string non-empty. -/
def truthyStr : Option String → Bool
  | some s => s != ""
  | none => false

/-- JavaScript `a || b` on a stored string: the fallback used for
`previousValue` placeholders. -/
def strOr (a b : String) : String :=
  if a = "" then b else a

/-- JavaScript `a || b` on an optional stored string. -/
def optStrOr (a : Option String) (b : String) : String :=
  match a with
  | some s => strOr s b
  | none => b

/-- Comparator of `trackStatusChanges`:
`(a, b) => b.timestamp - a.timestamp`, i.e. descending timestamp with
JavaScript's stable sort keeping ties in encounter order. -/
def changeDesc (a b : StatusChange) : Bool :=
  b.timestamp ≤ a.timestamp

/-- First `if` block of `trackStatusChanges`:
`updates.status && updates.status !== existingPatient.status` pushes a
highlighted `status` entry with `previousValue` defaulted through
`existingPatient.status || 'Unknown'`. -/
def statusChangeOf (idStatus : String) (now : Nat)
    (existingPatient : Patient) (updates : PatientUpdate) : List StatusChange :=
  match updates.status with
  | some s =>
    if s ≠ existingPatient.status then
      [{ id := idStatus
         patientId := existingPatient.id
         timestamp := now
         changeType := .status
         previousValue := strOr existingPatient.status.toStr "Unknown"
         newValue := s.toStr
         staffName := none
         isHighlighted := true }]
    else []
  | none => []

/-- Second `if` block of `trackStatusChanges`: the highlighted `triage`
entry. -/
def triageChangeOf (idTriage : String) (now : Nat)
    (existingPatient : Patient) (updates : PatientUpdate) : List StatusChange :=
  match updates.triageLevel with
  | some t =>
    if t ≠ existingPatient.triageLevel then
      [{ id := idTriage
         patientId := existingPatient.id
         timestamp := now
         changeType := .triage
         previousValue := existingPatient.triageLevel.toStr
         newValue := t.toStr
         staffName := none
         isHighlighted := true }]
    else []
  | none => []

/-- Third `if` block of `trackStatusChanges`: the non-highlighted
`notes` entry; `updates.notes` must be truthy, i.e. non-empty. -/
def notesChangeOf (idNotes : String) (now : Nat)
    (existingPatient : Patient) (updates : PatientUpdate) : List StatusChange :=
  match updates.notes with
  | some n =>
    if n ≠ "" ∧ n ≠ existingPatient.notes then
      [{ id := idNotes
         patientId := existingPatient.id
         timestamp := now
         changeType := .notes
         previousValue := strOr existingPatient.notes "No notes"
         newValue := n
         staffName := none
         isHighlighted := false }]
    else []
  | none => []

/-- Fourth `if` block of `trackStatusChanges`: the highlighted
`treatment` entry; `updates.treatmentPlan` must be truthy and differ
from the (possibly absent) stored plan. -/
def treatmentChangeOf (idTreatment : String) (now : Nat)
    (existingPatient : Patient) (updates : PatientUpdate) : List StatusChange :=
  match updates.treatmentPlan with
  | some tp =>
    if tp ≠ "" ∧ some tp ≠ existingPatient.treatmentPlan then
      [{ id := idTreatment
         patientId := existingPatient.id
         timestamp := now
         changeType := .treatment
         previousValue := optStrOr existingPatient.treatmentPlan "No treatment plan"
         newValue := tp
         staffName := none
         isHighlighted := true }]
    else []
  | none => []

/-- The `newChanges` array built inside `trackStatusChanges`: one entry
per tracked field whose proposed value is truthy and differs from the
stored one, pushed in source order (status, triage, notes, treatment).
`idStatus`/`idTriage`/`idNotes`/`idTreatment` stand for the
`crypto.randomUUID()` call of the corresponding push. -/
def newStatusChanges (idStatus idTriage idNotes idTreatment : String) (now : Nat)
    (existingPatient : Patient) (updates : PatientUpdate) : List StatusChange :=
  statusChangeOf idStatus now existingPatient updates ++
  triageChangeOf idTriage now existingPatient updates ++
  notesChangeOf idNotes now existingPatient updates ++
  treatmentChangeOf idTreatment now existingPatient updates

/-- Operation `trackStatusChanges`: combines the record's existing changes
(`existingPatient.statusChanges || []`) with the newly synthesized
ones, sorts descending by timestamp and keeps the first 50. -/
def trackStatusChanges (idStatus idTriage idNotes idTreatment : String) (now : Nat)
    (existingPatient : Patient) (updates : PatientUpdate) : List StatusChange :=
  (jsSort changeDesc
      ((existingPatient.statusChanges.getD []) ++
        newStatusChanges idStatus idTriage idNotes idTreatment now existingPatient updates)).take 50

/-- Dexie `db.patients.update(id, changes)`: merges the provided keys
into the stored record with that primary key. -/
def applyUpdate (p : Patient) (u : PatientUpdate) : Patient :=
  { id := u.id.getD p.id
    name := u.name.getD p.name
    age := u.age.getD p.age
    symptoms := u.symptoms.getD p.symptoms
    condition := u.condition.getD p.condition
    triageLevel := u.triageLevel.getD p.triageLevel
    timestamp := u.timestamp.getD p.timestamp
    status := u.status.getD p.status
    notes := u.notes.getD p.notes
    lastUpdated := u.lastUpdated.getD p.lastUpdated
    patientId := u.patientId.orElse (fun _ => p.patientId)
    mainComplaint := u.mainComplaint.orElse (fun _ => p.mainComplaint)
    medicalHistory := u.medicalHistory.orElse (fun _ => p.medicalHistory)
    examinationFindings := u.examinationFindings.orElse (fun _ => p.examinationFindings)
    provisionalDiagnosis := u.provisionalDiagnosis.orElse (fun _ => p.provisionalDiagnosis)
    treatmentPlan := u.treatmentPlan.orElse (fun _ => p.treatmentPlan)
    handoverNotes := u.handoverNotes.orElse (fun _ => p.handoverNotes)
    statusChanges := u.statusChanges.orElse (fun _ => p.statusChanges) }

/-- Store-level view of `db.patients.update(id, changes)`. -/
def dbUpdate (st : Store) (id : String) (u : PatientUpdate) : Store :=
  ⟨st.patients.map (fun p => if p.id == id then applyUpdate p u else p)⟩

/-- Operation `updatePatient`: loads the record (error when absent), strips `id`
and `timestamp` from the payload, runs the mutation tracker, then
persists the allowed updates together with `lastUpdated` and the new
`statusChanges` array.  `nowTrack` is the `Date.now()` read inside
`trackStatusChanges`, `nowUpd` the one setting `lastUpdated`. -/
def updatePatient (idStatus idTriage idNotes idTreatment : String)
    (nowTrack nowUpd : Nat) (st : Store) (id : String) (updates : PatientUpdate) :
    Except String Store :=
  match getById st id with
  | none => .error ("Failed to update patient: Patient with ID " ++ id ++ " not found")
  | some existingPatient =>
    let allowedUpdates : PatientUpdate := { updates with id := none, timestamp := none }
    let statusChanges :=
      trackStatusChanges idStatus idTriage idNotes idTreatment nowTrack
        existingPatient allowedUpdates
    let updatesWithTimestamp : PatientUpdate :=
      { allowedUpdates with lastUpdated := some nowUpd, statusChanges := some statusChanges }
    .ok (dbUpdate st id updatesWithTimestamp)

/-- Operation `addHandoverNote`: loads the record (error when absent), synthesizes
`id` (`newId`) and `timestamp` (`nowNote`), prepends to the existing
`handoverNotes || []`, keeps the first 20, and persists them together
with a refreshed `lastUpdated` (`nowUpd`). -/
def addHandoverNote (newId : String) (nowNote nowUpd : Nat) (st : Store)
    (patientId : String) (handoverNote : HandoverNoteInput) : Except String Store :=
  match getById st patientId with
  | none => .error ("Failed to add handover note: Patient with ID " ++ patientId ++ " not found")
  | some existingPatient =>
    let newHandoverNote : HandoverNote :=
      { staffName := handoverNote.staffName
        shiftType := handoverNote.shiftType
        summary := handoverNote.summary
        criticalUpdates := handoverNote.criticalUpdates
        keyObservations := handoverNote.keyObservations
        actionItems := handoverNote.actionItems
        priority := handoverNote.priority
        id := newId
        patientId := patientId
        timestamp := nowNote }
    let existingNotes := existingPatient.handoverNotes.getD []
    let updatedNotes := (newHandoverNote :: existingNotes).take 20
    .ok (dbUpdate st patientId
      { handoverNotes := some updatedNotes, lastUpdated := some nowUpd })

/-- JavaScript `String.prototype.includes`: `sub` occurs contiguously in
`s`. -/
def strIncludes (s sub : String) : Bool :=
  s.toList.tails.any (fun t => sub.toList.isPrefixOf t)

/-- JavaScript `String.prototype.toLowerCase` (over the ASCII range
the application's data uses). -/
def toLowerJS (s : String) : String :=
  String.mk (s.toList.map Char.toLower)

/-- Operation `searchPatients`: lowercases the term, then filters `getPatients`
on a case-insensitive substring match against `name`, `condition` and
`notes`. -/
def searchPatients (st : Store) (searchTerm : String) : List Patient :=
  let searchLower := toLowerJS searchTerm
  (getPatients st).filter (fun patient =>
    strIncludes (toLowerJS patient.name) searchLower ||
    strIncludes (toLowerJS patient.condition) searchLower ||
    strIncludes (toLowerJS patient.notes) searchLower)

/-! ### Export serializer (`src/services/export.ts`) -/

/-- Left-pad the decimal representation of `n` with zeros to `w`
digits, as the fields of a JavaScript ISO date string are rendered. -/
def padZeros (w n : Nat) : String :=
  let s := toString n
  String.mk (List.replicate (w - s.length) '0') ++ s

/-- Proleptic-Gregorian civil date `(year, month, day)` of a day count
since 1970-01-01 (the standard era-based conversion used by
`Date.prototype.toISOString` for non-negative epoch times). -/
def civilFromDays (z : Nat) : Nat × Nat × Nat :=
  let z' := z + 719468
  let era := z' / 146097
  let doe := z' % 146097
  let yoe := (doe - doe / 1460 + doe / 36524 - doe / 146096) / 365
  let y := yoe + era * 400
  let doy := doe - (365 * yoe + yoe / 4 - yoe / 100)
  let mp := (5 * doy + 2) / 153
  let d := doy - (153 * mp + 2) / 5 + 1
  let m := if mp < 10 then mp + 3 else mp - 9
  (if m ≤ 2 then y + 1 else y, m, d)

/-- JavaScript `new Date(ms).toISOString()` for a non-negative epoch-millisecond
value: `YYYY-MM-DDTHH:MM:SS.mmmZ`. -/
def toISOString (ms : Nat) : String :=
  let days := ms / 86400000
  let msInDay := ms % 86400000
  let ymd := civilFromDays days
  let hh := msInDay / 3600000
  let mi := msInDay % 3600000 / 60000
  let ss := msInDay % 60000 / 1000
  let mmm := msInDay % 1000
  padZeros 4 ymd.1 ++ "-" ++ padZeros 2 ymd.2.1 ++ "-" ++ padZeros 2 ymd.2.2 ++
    "T" ++ padZeros 2 hh ++ ":" ++ padZeros 2 mi ++ ":" ++ padZeros 2 ss ++
    "." ++ padZeros 3 mmm ++ "Z"

/-- Operation `formatTimestamp`: renders a stored timestamp as its ISO string. -/
def formatTimestamp (timestamp : Nat) : String :=
  toISOString timestamp

/-- JavaScript `value.replace` doubling every double quote: double quote doubled. -/
def doubleQuotes (s : String) : String :=
  String.mk (s.toList.foldr (fun c acc => if c = '\"' then '\"' :: '\"' :: acc else c :: acc) [])

/-- JavaScript `String.prototype.includes` specialised to a single
character. -/
def containsChar (s : String) (c : Char) : Bool :=
  s.toList.contains c

/-- Operation `escapeCSVValue`: wrap in double quotes (doubling internal quotes)
exactly when the value contains a comma, double quote, LF or CR. -/
def escapeCSVValue (value : String) : String :=
  if containsChar value ',' || containsChar value '\"' ||
      containsChar value '\n' || containsChar value '\r' then
    "\"" ++ doubleQuotes value ++ "\""
  else
    value

/-- Operation `patientToCSVRow`: semicolon-joined symptoms, ISO timestamp, each
field escaped (the numeric `age` stringified unescaped), comma-joined. -/
def patientToCSVRow (patient : Patient) : String :=
  let symptomsFormatted := String.intercalate ";" patient.symptoms
  let timestampFormatted := formatTimestamp patient.timestamp
  String.intercalate ","
    [escapeCSVValue patient.id,
     escapeCSVValue patient.name,
     toString patient.age,
     escapeCSVValue symptomsFormatted,
     escapeCSVValue patient.condition,
     escapeCSVValue patient.triageLevel.toStr,
     escapeCSVValue timestampFormatted]

/-- Operation `exportToCSV`: the sentinel message on an empty store, otherwise
the fixed header row followed by one row per record in `getPatients`
order, newline-joined. -/
def exportToCSV (st : Store) : String :=
  let patients := getPatients st
  if patients.length = 0 then
    "No patient data available for export"
  else
    let headers := ["Patient ID", "Name", "Age", "Symptoms", "Condition", "Triage Level", "Timestamp"]
    let csvRows := String.intercalate "," headers :: patients.map patientToCSVRow
    String.intercalate "\n" csvRows

/-- Operation `generateTimestampedFilename`:
`now.toISOString().replace(/:/g, "-").replace(/\./g, "-").slice(0, 19)`
joined as `pre_timestamp.ext`.  `nowMs` stands for the `new Date()`
clock reading in epoch milliseconds. -/
def generateTimestampedFilename (pre ext : String) (nowMs : Nat) : String :=
  let replaced :=
    (toISOString nowMs).toList.map (fun c => if c = ':' then '-' else c)
      |>.map (fun c => if c = '.' then '-' else c)
  let timestamp := String.mk (replaced.take 19)
  pre ++ "_" ++ timestamp ++ "." ++ ext

/-! ### Concrete scenario data used by the theorems -/

/-- A record as `addPatient` stores it, used as the starting point of
the concrete scenarios. -/
def basePatient : Patient :=
  { id := "p1", name := "Alice", age := 30, symptoms := ["fever"],
    condition := "stable", triageLevel := .Stable, timestamp := 100,
    status := .Waiting, notes := "", lastUpdated := 100, patientId := none,
    mainComplaint := none, medicalHistory := none, examinationFindings := none,
    provisionalDiagnosis := none, treatmentPlan := none,
    handoverNotes := none, statusChanges := none }

/-- A record whose `notes` field holds text, for exercising the
mutation tracker on a notes update. -/
def notesClearPatient : Patient :=
  { basePatient with id := "p2", notes := "old" }

/-- The partial update that clears the treatment notes: `notes` is
present in the payload and differs from the stored `"old"`. -/
def notesClearUpdate : PatientUpdate :=
  { notes := some "" }

/-- Alternating status used to make every sequential update produce
exactly one StatusChange. -/
def flipStatus (k : Nat) : PatientStatus :=
  if k % 2 = 1 then .InTreatment else .Waiting

/-- The store after `k` sequential `updatePatient` calls on
`basePatient`, the `k`-th call flipping `status` at instant `k`. -/
def retentionStore : Nat → Store
  | 0 => ⟨[basePatient]⟩
  | k + 1 =>
    match updatePatient "c" "c" "c" "c" (k + 1) (k + 1) (retentionStore k) "p1"
        { status := some (flipStatus (k + 1)) } with
    | .ok st => st
    | .error _ => ⟨[]⟩

/-- A handover-note payload. -/
def handoverInput : HandoverNoteInput :=
  { staffName := "S", shiftType := .outgoing, summary := "sum",
    criticalUpdates := [], keyObservations := "", actionItems := [],
    priority := .medium }

/-- The store after `k` sequential `addHandoverNote` calls on
`basePatient`, the `k`-th note stamped at instant `k`. -/
def handoverStore : Nat → Store
  | 0 => ⟨[basePatient]⟩
  | k + 1 =>
    match addHandoverNote "h" (k + 1) (k + 1) (handoverStore k) "p1" handoverInput with
    | .ok st => st
    | .error _ => ⟨[]⟩

/-- A record whose name needs CSV escaping. -/
def obrienPatient : Patient :=
  { basePatient with
    id := "p9", name := "O\"Brien, J.",
    symptoms := ["fever", "vomiting"], triageLevel := .Urgent,
    timestamp := 1705329045000 }

/-- A two-record store exercising the CSV export. -/
def exportStore : Store :=
  ⟨[obrienPatient, { basePatient with timestamp := 1705329046000 }]⟩

/-- A creation payload (the caller may supply `status`, `notes`,
`lastUpdated`; `addPatient` overrides them). -/
def sampleInput : NewPatientInput :=
  { name := "Omar", age := 7, symptoms := ["mild cough"], condition := "",
    triageLevel := .Stable, status := .Treated, notes := "ignored",
    lastUpdated := 3 }

/-! ### General lemmas about the embedded operations -/

theorem jsInsert_perm {α : Type} (le : α → α → Bool) (x : α) (l : List α) :
    (jsInsert le x l).Perm (x :: l) := by
  induction l with
  | nil => simp [jsInsert]
  | cons y ys ih =>
    simp only [jsInsert]
    split
    · exact List.Perm.refl _
    · exact (ih.cons y).trans (List.Perm.swap x y ys)

theorem jsSort_perm {α : Type} (le : α → α → Bool) (l : List α) :
    (jsSort le l).Perm l := by
  induction l with
  | nil => simp [jsSort]
  | cons x xs ih => exact (jsInsert_perm le x _).trans (ih.cons x)

theorem length_jsSort {α : Type} (le : α → α → Bool) (l : List α) :
    (jsSort le l).length = l.length :=
  (jsSort_perm le l).length_eq

theorem mem_jsSort {α : Type} (le : α → α → Bool) (l : List α) (a : α) :
    a ∈ jsSort le l ↔ a ∈ l :=
  (jsSort_perm le l).mem_iff

theorem pairwise_jsInsert {α : Type} (le : α → α → Bool)
    (htrans : ∀ a b c, le a b = true → le b c = true → le a c = true)
    (htot : ∀ a b, le a b = true ∨ le b a = true)
    (x : α) (l : List α)
    (hl : l.Pairwise (fun a b => le a b = true)) :
    (jsInsert le x l).Pairwise (fun a b => le a b = true) := by
  induction l with
  | nil => simp [jsInsert]
  | cons y ys ih =>
    rw [List.pairwise_cons] at hl
    obtain ⟨hy, hys⟩ := hl
    by_cases hxy : le x y = true
    · simp only [jsInsert, if_pos hxy]
      rw [List.pairwise_cons]
      refine ⟨?_, List.pairwise_cons.mpr ⟨hy, hys⟩⟩
      intro z hz
      rcases List.mem_cons.mp hz with rfl | hz
      · exact hxy
      · exact htrans x y z hxy (hy z hz)
    · simp only [jsInsert, if_neg hxy]
      rw [List.pairwise_cons]
      refine ⟨?_, ih hys⟩
      intro z hz
      rcases List.mem_cons.mp ((jsInsert_perm le x ys).mem_iff.mp hz) with heq | hz'
      · rw [heq]
        rcases htot x y with h | h
        · exact absurd h hxy
        · exact h
      · exact hy z hz'

theorem pairwise_jsSort {α : Type} (le : α → α → Bool)
    (htrans : ∀ a b c, le a b = true → le b c = true → le a c = true)
    (htot : ∀ a b, le a b = true ∨ le b a = true)
    (l : List α) :
    (jsSort le l).Pairwise (fun a b => le a b = true) := by
  induction l with
  | nil => simp [jsSort]
  | cons x xs ih => exact pairwise_jsInsert le htrans htot x _ ih

theorem jsSort_of_sorted {α : Type} (le : α → α → Bool) (l : List α)
    (h : l.Pairwise (fun a b => le a b = true)) : jsSort le l = l := by
  induction l with
  | nil => rfl
  | cons x xs ih =>
    rw [List.pairwise_cons] at h
    obtain ⟨hx, hxs⟩ := h
    simp only [jsSort, ih hxs]
    cases xs with
    | nil => rfl
    | cons y ys => simp only [jsInsert, if_pos (hx y (List.mem_cons_self y ys))]

theorem changeDesc_trans (a b c : StatusChange) :
    changeDesc a b = true → changeDesc b c = true → changeDesc a c = true := by
  simp only [changeDesc, decide_eq_true_eq]
  omega

theorem changeDesc_total (a b : StatusChange) :
    changeDesc a b = true ∨ changeDesc b a = true := by
  simp only [changeDesc, decide_eq_true_eq]
  omega

theorem charsLe_total : ∀ a b : List Char, charsLe a b = true ∨ charsLe b a = true := by
  intro a
  induction a with
  | nil => intro b; left; rfl
  | cons x xs ih =>
    intro b
    cases b with
    | nil => right; rfl
    | cons y ys =>
      by_cases hxy : x = y
      · subst hxy
        simp only [charsLe, if_pos rfl]
        exact ih ys
      · have hyx : ¬ y = x := fun h => hxy h.symm
        simp only [charsLe, if_neg hxy, if_neg hyx, decide_eq_true_eq]
        omega

theorem charsLe_trans : ∀ a b c : List Char,
    charsLe a b = true → charsLe b c = true → charsLe a c = true := by
  intro a
  induction a with
  | nil => intro b c _ _; rfl
  | cons x xs ih =>
    intro b c hab hbc
    cases b with
    | nil => simp [charsLe] at hab
    | cons y ys =>
      cases c with
      | nil => simp [charsLe] at hbc
      | cons z zs =>
        by_cases hxy : x = y <;> by_cases hyz : y = z
        · subst hxy; subst hyz
          simp only [charsLe, if_pos rfl] at hab hbc ⊢
          exact ih ys zs hab hbc
        · subst hxy
          simp only [charsLe, if_pos rfl, if_neg hyz] at hab hbc ⊢
          exact hbc
        · subst hyz
          simp only [charsLe, if_neg hxy, if_pos rfl] at hab hbc ⊢
          exact hab
        · by_cases hxz : x = z
          · subst hxz
            simp only [charsLe, if_neg hxy, if_neg hyz, decide_eq_true_eq] at hab hbc
            have : x.toNat = y.toNat := by omega
            exact absurd (Char.eq_of_val_eq (UInt32.ext this)) hxy
          · simp only [charsLe, if_neg hxy, if_neg hyz, if_neg hxz,
              decide_eq_true_eq] at hab hbc ⊢
            omega

theorem strLe_total (a b : String) : strLe a b = true ∨ strLe b a = true :=
  charsLe_total a.toList b.toList

theorem strLe_trans (a b c : String) :
    strLe a b = true → strLe b c = true → strLe a c = true :=
  charsLe_trans a.toList b.toList c.toList

theorem indexLe_trans (a b c : Patient) :
    indexLe a b = true → indexLe b c = true → indexLe a c = true := by
  intro hab hbc
  unfold indexLe at hab hbc ⊢
  by_cases h1 : a.timestamp = b.timestamp <;> by_cases h2 : b.timestamp = c.timestamp
  · rw [if_pos h1] at hab
    rw [if_pos h2] at hbc
    rw [if_pos (h1.trans h2)]
    exact strLe_trans _ _ _ hab hbc
  · rw [if_pos h1] at hab
    rw [if_neg h2, decide_eq_true_eq] at hbc
    have h3 : ¬ a.timestamp = c.timestamp := by omega
    rw [if_neg h3, decide_eq_true_eq]
    omega
  · rw [if_neg h1, decide_eq_true_eq] at hab
    rw [if_pos h2] at hbc
    have h3 : ¬ a.timestamp = c.timestamp := by omega
    rw [if_neg h3, decide_eq_true_eq]
    omega
  · rw [if_neg h1, decide_eq_true_eq] at hab
    rw [if_neg h2, decide_eq_true_eq] at hbc
    have h3 : ¬ a.timestamp = c.timestamp := by omega
    rw [if_neg h3, decide_eq_true_eq]
    omega

theorem indexLe_total (a b : Patient) : indexLe a b = true ∨ indexLe b a = true := by
  unfold indexLe
  by_cases h1 : a.timestamp = b.timestamp
  · rw [if_pos h1, if_pos h1.symm]
    exact strLe_total a.id b.id
  · have h2 : ¬ b.timestamp = a.timestamp := fun h => h1 h.symm
    rw [if_neg h1, if_neg h2, decide_eq_true_eq, decide_eq_true_eq]
    omega

theorem find?_map_update (l : List Patient) (pid : String) (u : PatientUpdate)
    (hid : u.id = none) :
    (l.map (fun p => if p.id == pid then applyUpdate p u else p)).find?
        (fun p => p.id == pid) =
      (l.find? (fun p => p.id == pid)).map (fun p => applyUpdate p u) := by
  induction l with
  | nil => rfl
  | cons q qs ih =>
    by_cases hq : (q.id == pid) = true
    · have hif : (if q.id == pid then applyUpdate q u else q) = applyUpdate q u := if_pos hq
      have h3 : ((applyUpdate q u).id == pid) = true := by
        simp only [applyUpdate, hid, Option.getD_none]
        exact hq
      rw [List.map_cons, List.find?_cons, hif, h3, List.find?_cons, hq]
      rfl
    · have hif : (if q.id == pid then applyUpdate q u else q) = q := if_neg hq
      have hq' : (q.id == pid) = false := Bool.eq_false_iff.mpr (fun h => hq h)
      rw [List.map_cons, List.find?_cons, hif, hq', List.find?_cons, hq', ih]

theorem getById_dbUpdate (st : Store) (pid : String) (u : PatientUpdate)
    (hid : u.id = none) :
    getById (dbUpdate st pid u) pid = (getById st pid).map (fun p => applyUpdate p u) := by
  simpa [getById, dbUpdate] using find?_map_update st.patients pid u hid

theorem nil_isPrefixOf (l : List Char) : List.isPrefixOf [] l = true := by
  cases l <;> rfl

theorem strIncludes_empty (s : String) : strIncludes s "" = true := by
  unfold strIncludes
  have h0 : ("" : String).toList = [] := rfl
  rw [h0]
  cases h : s.toList with
  | nil => rfl
  | cons c cs =>
    rw [List.tails_cons, List.any_cons, nil_isPrefixOf, Bool.true_or]

/-! ### The claims -/

set_option maxRecDepth 40000

/-- C10: searching with the empty string filters nothing out — the
empty string is a substring of every lowercased field, so
`searchPatients` returns every record in the `getPatients`
(newest-first) order. -/
theorem C10_empty_search_returns_all (st : Store) :
    searchPatients st "" = getPatients st := by
  simp only [searchPatients, show toLowerJS "" = "" from rfl]
  exact List.filter_eq_self.mpr (fun p _ => by simp [strIncludes_empty])

/-- C4: the spec (and the source's own comment) claim the exported
filename renders the clock as `YYYY-MM-DD_HH-MM-SS`, but the code's
`toISOString().replace(/:/g,"-").replace(/\./g,"-").slice(0,19)` keeps
the ISO `T` separator: at the fixed clock 2024-01-15T14:30:45Z the code
produces `triage-export_2024-01-15T14-30-45.csv`, not the claimed
`triage-export_2024-01-15_14-30-45.csv`. -/
theorem C4_filename_keeps_T_separator :
    generateTimestampedFilename "triage-export" "csv" 1705329045000 =
      "triage-export_2024-01-15T14-30-45.csv" ∧
    toISOString 1705329045000 = "2024-01-15T14:30:45.000Z" ∧
    generateTimestampedFilename "triage-export" "csv" 1705329045000 ≠
      "triage-export_2024-01-15_14-30-45.csv" :=
  ⟨by decide, by decide, by decide⟩

/-- C3 counterexample: after a first successful delete the id is
absent, and the second `deletePatient` call on the absent id returns
success (the underlying keyed delete is a no-op on a missing key and
the defensive re-read finds nothing) — it does not fail as the claim
states. -/
theorem C3_counterexample_second_delete_succeeds :
    deletePatient ⟨[basePatient]⟩ "p1" = .ok ⟨[]⟩ ∧
    deletePatient (⟨[]⟩ : Store) "p1" = .ok ⟨[]⟩ :=
  ⟨rfl, rfl⟩

/-- C3 amended: after `delete(id)` succeeds on an existing record,
`getById id` is not-found and `getAll` omits the record while keeping
all others; a second `delete(id)` on the now-absent id succeeds
silently as a no-op rather than failing (the code only errors when the
record is still retrievable after the removal attempt). -/
theorem C3_delete_finality (st : Store) (id : String) :
    ∃ st', deletePatient st id = .ok st' ∧
      getById st' id = none ∧
      (∀ p ∈ getPatients st', p.id ≠ id) ∧
      (∀ p ∈ getPatients st, p.id ≠ id → p ∈ getPatients st') ∧
      deletePatient st' id = .ok st' := by
  have hnone : getById (⟨st.patients.filter (fun p => !(p.id == id))⟩ : Store) id = none := by
    unfold getById
    rw [List.find?_eq_none]
    intro x hx
    have h2 := (List.mem_filter.mp hx).2
    simp only [Bool.not_eq_true'] at h2
    simp [h2]
  have hfix : (st.patients.filter (fun p => !(p.id == id))).filter
      (fun p => !(p.id == id)) = st.patients.filter (fun p => !(p.id == id)) :=
    List.filter_eq_self.mpr (fun a ha => (List.mem_filter.mp ha).2)
  refine ⟨⟨st.patients.filter (fun p => !(p.id == id))⟩, ?_, hnone, ?_, ?_, ?_⟩
  · simp only [deletePatient]
    rw [hnone]
  · intro p hp
    have hmem : p ∈ st.patients.filter (fun p => !(p.id == id)) :=
      (mem_jsSort indexLe _ p).mp (List.mem_reverse.mp hp)
    have h2 := (List.mem_filter.mp hmem).2
    simp only [Bool.not_eq_true'] at h2
    intro hcontra
    rw [hcontra] at h2
    simp at h2
  · intro p hp hpid
    have hmem : p ∈ st.patients := (mem_jsSort indexLe _ p).mp (List.mem_reverse.mp hp)
    have : p ∈ st.patients.filter (fun p => !(p.id == id)) :=
      List.mem_filter.mpr ⟨hmem, by simp [hpid]⟩
    exact List.mem_reverse.mpr ((mem_jsSort indexLe _ p).mpr this)
  · simp only [deletePatient]
    rw [hfix, hnone]

/-- C3 witness: the amended delete-finality theorem applied to a
one-record store. -/
theorem C3_delete_finality_witness :
    ∃ st', deletePatient ⟨[basePatient]⟩ "p1" = .ok st' ∧
      getById st' "p1" = none ∧
      (∀ p ∈ getPatients st', p.id ≠ "p1") ∧
      (∀ p ∈ getPatients ⟨[basePatient]⟩, p.id ≠ "p1" → p ∈ getPatients st') ∧
      deletePatient st' "p1" = .ok st' :=
  C3_delete_finality ⟨[basePatient]⟩ "p1"

/-- C7: `addPatient` persists the input plus the system-assigned
identifier, creation timestamp, `status = Waiting`, `notes = ""` and
`lastUpdated` equal to the creation timestamp, returns the identifier,
and a subsequent `getById` retrieves exactly that record. -/
theorem C7_create_roundtrip (newId : String) (now : Nat) (st : Store)
    (inp : NewPatientInput) (hfresh : ∀ q ∈ st.patients, q.id ≠ newId) :
    ∃ st', addPatient newId now st inp = .ok (newId, st') ∧
      getById st' newId = some
        { name := inp.name, age := inp.age, symptoms := inp.symptoms,
          condition := inp.condition, triageLevel := inp.triageLevel,
          patientId := inp.patientId, mainComplaint := inp.mainComplaint,
          medicalHistory := inp.medicalHistory,
          examinationFindings := inp.examinationFindings,
          provisionalDiagnosis := inp.provisionalDiagnosis,
          treatmentPlan := inp.treatmentPlan,
          handoverNotes := inp.handoverNotes,
          statusChanges := inp.statusChanges,
          id := newId, timestamp := now, status := .Waiting, notes := "",
          lastUpdated := now } := by
  have hany : st.patients.any (fun p => p.id == newId) = false := by
    rw [Bool.eq_false_iff]
    intro h
    obtain ⟨x, hx, hbeq⟩ := List.any_eq_true.mp h
    exact hfresh x hx (by simpa using hbeq)
  refine ⟨_, by unfold addPatient; rw [hany]; rfl, ?_⟩
  unfold getById
  rw [List.find?_append,
    List.find?_eq_none.mpr (fun x hx hbeq => hfresh x hx (by simpa using hbeq))]
  simp

/-- C7 witness: creating a record in an empty store and reading it
back. -/
theorem C7_create_roundtrip_witness :
    (∀ q ∈ (⟨[]⟩ : Store).patients, q.id ≠ "u1") ∧
    ∃ st', addPatient "u1" 5 ⟨[]⟩ sampleInput = .ok ("u1", st') ∧
      getById st' "u1" = some
        { name := "Omar", age := 7, symptoms := ["mild cough"], condition := "",
          triageLevel := .Stable, patientId := none, mainComplaint := none,
          medicalHistory := none, examinationFindings := none,
          provisionalDiagnosis := none, treatmentPlan := none,
          handoverNotes := none, statusChanges := none,
          id := "u1", timestamp := 5, status := .Waiting, notes := "",
          lastUpdated := 5 } :=
  ⟨fun q hq => absurd hq (List.not_mem_nil q),
   C7_create_roundtrip "u1" 5 ⟨[]⟩ sampleInput (fun q hq => absurd hq (List.not_mem_nil q))⟩

/-- C2 counterexample: on a freshly created record, whose
`statusChanges` field is absent, the update
`{id: "other", timestamp: 0, name: "X"}` does not change only `name`
and `lastUpdated`: the persisted record also gains a materialized
`statusChanges` array (`[]`), because `updatePatient` always writes the
mutation tracker's output alongside the allowed updates.  `id` and
`timestamp` are indeed unchanged. -/
theorem C2_counterexample_fresh_record_gains_statusChanges :
    basePatient.statusChanges = none ∧
    (∃ st', updatePatient "a" "b" "c" "d" 7 8 ⟨[basePatient]⟩ "p1"
        { id := some "other", timestamp := some 0, name := some "X" } = .ok st' ∧
      ∃ p', getById st' "p1" = some p' ∧
        p'.statusChanges = some [] ∧
        p'.statusChanges ≠ basePatient.statusChanges ∧
        p'.id = basePatient.id ∧ p'.timestamp = basePatient.timestamp) := by
  refine ⟨rfl, _, rfl, _, rfl, rfl, ?_, rfl, rfl⟩
  decide

/-- C2 amended: for every existing record and every update payload,
`updatePatient` silently strips `id` and `timestamp` — the persisted
record keeps its prior `id` and `timestamp` whatever the payload
supplies for them.  For the specific payload
`{id: "other", timestamp: 0, name: "X"}` only `name`, `lastUpdated` and
the `statusChanges` audit field change: `statusChanges` is rewritten to
the sorted, 50-trimmed view of its prior entries with no entry added
(materialized to `[]` when previously absent), so under the code's own
`statusChanges || []` view an already sorted and bounded audit list is
unchanged; every other field keeps its prior value. -/
theorem C2_id_timestamp_immutable (i1 i2 i3 i4 : String) (n1 n2 : Nat)
    (st : Store) (pid : String) (p : Patient) (u : PatientUpdate)
    (hget : getById st pid = some p) :
    (∃ st', updatePatient i1 i2 i3 i4 n1 n2 st pid u = .ok st' ∧
      ∃ p', getById st' pid = some p' ∧
        p'.id = p.id ∧ p'.timestamp = p.timestamp) ∧
    (∃ st', updatePatient i1 i2 i3 i4 n1 n2 st pid
        { id := some "other", timestamp := some 0, name := some "X" } = .ok st' ∧
      ∃ p', getById st' pid = some p' ∧
        p'.id = p.id ∧ p'.timestamp = p.timestamp ∧ p'.name = "X" ∧
        p'.lastUpdated = n2 ∧
        p'.statusChanges =
          some ((jsSort changeDesc (p.statusChanges.getD [])).take 50) ∧
        ((p.statusChanges.getD []).Pairwise (fun a b => changeDesc a b = true) →
          (p.statusChanges.getD []).length ≤ 50 →
          p'.statusChanges.getD [] = p.statusChanges.getD []) ∧
        p'.age = p.age ∧ p'.symptoms = p.symptoms ∧ p'.condition = p.condition ∧
        p'.triageLevel = p.triageLevel ∧ p'.status = p.status ∧
        p'.notes = p.notes ∧ p'.patientId = p.patientId ∧
        p'.mainComplaint = p.mainComplaint ∧ p'.medicalHistory = p.medicalHistory ∧
        p'.examinationFindings = p.examinationFindings ∧
        p'.provisionalDiagnosis = p.provisionalDiagnosis ∧
        p'.treatmentPlan = p.treatmentPlan ∧ p'.handoverNotes = p.handoverNotes) := by
  constructor
  · simp only [updatePatient, hget]
    refine ⟨_, rfl, ?_⟩
    rw [getById_dbUpdate st pid _ rfl, hget]
    exact ⟨_, rfl, by simp [applyUpdate], by simp [applyUpdate]⟩
  · simp only [updatePatient, hget]
    refine ⟨_, rfl, ?_⟩
    rw [getById_dbUpdate st pid _ rfl, hget]
    have htrack : trackStatusChanges i1 i2 i3 i4 n1 p
        { id := none, timestamp := none, name := some "X" } =
        (jsSort changeDesc (p.statusChanges.getD [])).take 50 := by
      unfold trackStatusChanges
      rw [show newStatusChanges i1 i2 i3 i4 n1 p
          { id := none, timestamp := none, name := some "X" } = [] from rfl,
        List.append_nil]
    refine ⟨_, rfl, ?_, ?_, ?_, ?_, ?_, ?_, ?_, ?_, ?_, ?_, ?_, ?_, ?_, ?_, ?_,
        ?_, ?_, ?_, ?_⟩ <;>
      try simp [applyUpdate, Option.orElse, htrack]
    intro hsort hlen
    simp [applyUpdate, Option.orElse, htrack, jsSort_of_sorted _ _ hsort,
      List.take_of_length_le hlen]

/-- C2 witness: the amended immutability theorem applied to a
one-record store with a payload that tries to overwrite `id` and
`timestamp`. -/
theorem C2_id_timestamp_immutable_witness :
    ∃ st', updatePatient "a" "b" "c" "d" 7 8 ⟨[basePatient]⟩ "p1"
        { id := some "zzz", timestamp := some 123, notes := some "new" } = .ok st' ∧
      ∃ p', getById st' "p1" = some p' ∧
        p'.id = basePatient.id ∧ p'.timestamp = basePatient.timestamp :=
  (C2_id_timestamp_immutable "a" "b" "c" "d" 7 8 ⟨[basePatient]⟩ "p1" basePatient
    { id := some "zzz", timestamp := some 123, notes := some "new" } rfl).1

/-- C8: `searchPatients` returns exactly the records whose `name`,
`condition` or `notes` contains the term as a case-insensitive
substring — no others — as a sublist of `getPatients`, hence in the
same newest-first (timestamp-descending) order. -/
theorem C8_search_exact_matches (st : Store) (term : String) :
    (searchPatients st term).Sublist (getPatients st) ∧
    (∀ p, p ∈ searchPatients st term ↔ p ∈ getPatients st ∧
      (strIncludes (toLowerJS p.name) (toLowerJS term) = true ∨
       strIncludes (toLowerJS p.condition) (toLowerJS term) = true ∨
       strIncludes (toLowerJS p.notes) (toLowerJS term) = true)) ∧
    (searchPatients st term).Pairwise (fun a b => b.timestamp ≤ a.timestamp) := by
  refine ⟨?_, ?_, ?_⟩
  · simp only [searchPatients]
    exact List.filter_sublist _
  · intro p
    simp only [searchPatients]
    rw [List.mem_filter]
    simp [Bool.or_eq_true, or_assoc]
  · have hsorted : (getPatients st).Pairwise (fun a b => indexLe b a = true) := by
      unfold getPatients
      rw [List.pairwise_reverse]
      exact pairwise_jsSort indexLe indexLe_trans indexLe_total st.patients
    have hts : (getPatients st).Pairwise (fun a b => b.timestamp ≤ a.timestamp) := by
      refine hsorted.imp ?_
      intro a b h
      unfold indexLe at h
      by_cases he : b.timestamp = a.timestamp
      · omega
      · rw [if_neg he, decide_eq_true_eq] at h
        omega
    simp only [searchPatients]
    exact hts.filter _

theorem statusChangeOf_filter_self (i : String) (now : Nat) (p : Patient)
    (u : PatientUpdate) :
    (statusChangeOf i now p u).filter (fun c => c.changeType == ChangeType.status) =
      statusChangeOf i now p u := by
  unfold statusChangeOf
  rcases hu : u.status with _ | s <;> simp only [hu]
  · rfl
  · split <;> rfl

theorem statusChangeOf_filter_ne (i : String) (now : Nat) (p : Patient)
    (u : PatientUpdate) (ct : ChangeType) (h : ct ≠ ChangeType.status) :
    (statusChangeOf i now p u).filter (fun c => c.changeType == ct) = [] := by
  unfold statusChangeOf
  rcases hu : u.status with _ | s <;> simp only [hu]
  · rfl
  · split
    · simp [Ne.symm h]
    · rfl

theorem triageChangeOf_filter_self (i : String) (now : Nat) (p : Patient)
    (u : PatientUpdate) :
    (triageChangeOf i now p u).filter (fun c => c.changeType == ChangeType.triage) =
      triageChangeOf i now p u := by
  unfold triageChangeOf
  rcases hu : u.triageLevel with _ | t <;> simp only [hu]
  · rfl
  · split <;> rfl

theorem triageChangeOf_filter_ne (i : String) (now : Nat) (p : Patient)
    (u : PatientUpdate) (ct : ChangeType) (h : ct ≠ ChangeType.triage) :
    (triageChangeOf i now p u).filter (fun c => c.changeType == ct) = [] := by
  unfold triageChangeOf
  rcases hu : u.triageLevel with _ | t <;> simp only [hu]
  · rfl
  · split
    · simp [Ne.symm h]
    · rfl

theorem notesChangeOf_filter_self (i : String) (now : Nat) (p : Patient)
    (u : PatientUpdate) :
    (notesChangeOf i now p u).filter (fun c => c.changeType == ChangeType.notes) =
      notesChangeOf i now p u := by
  unfold notesChangeOf
  rcases hu : u.notes with _ | n <;> simp only [hu]
  · rfl
  · split <;> rfl

theorem notesChangeOf_filter_ne (i : String) (now : Nat) (p : Patient)
    (u : PatientUpdate) (ct : ChangeType) (h : ct ≠ ChangeType.notes) :
    (notesChangeOf i now p u).filter (fun c => c.changeType == ct) = [] := by
  unfold notesChangeOf
  rcases hu : u.notes with _ | n <;> simp only [hu]
  · rfl
  · split
    · simp [Ne.symm h]
    · rfl

theorem treatmentChangeOf_filter_self (i : String) (now : Nat) (p : Patient)
    (u : PatientUpdate) :
    (treatmentChangeOf i now p u).filter (fun c => c.changeType == ChangeType.treatment) =
      treatmentChangeOf i now p u := by
  unfold treatmentChangeOf
  rcases hu : u.treatmentPlan with _ | tp <;> simp only [hu]
  · rfl
  · split <;> rfl

theorem treatmentChangeOf_filter_ne (i : String) (now : Nat) (p : Patient)
    (u : PatientUpdate) (ct : ChangeType) (h : ct ≠ ChangeType.treatment) :
    (treatmentChangeOf i now p u).filter (fun c => c.changeType == ct) = [] := by
  unfold treatmentChangeOf
  rcases hu : u.treatmentPlan with _ | tp <;> simp only [hu]
  · rfl
  · split
    · simp [Ne.symm h]
    · rfl

theorem newChanges_filter_status (i1 i2 i3 i4 : String) (now : Nat)
    (p : Patient) (u : PatientUpdate) :
    (newStatusChanges i1 i2 i3 i4 now p u).filter
        (fun c => c.changeType == ChangeType.status) = statusChangeOf i1 now p u := by
  unfold newStatusChanges
  rw [List.filter_append, List.filter_append, List.filter_append,
    statusChangeOf_filter_self, triageChangeOf_filter_ne _ _ _ _ _ (by decide),
    notesChangeOf_filter_ne _ _ _ _ _ (by decide),
    treatmentChangeOf_filter_ne _ _ _ _ _ (by decide),
    List.append_nil, List.append_nil, List.append_nil]

theorem newChanges_filter_triage (i1 i2 i3 i4 : String) (now : Nat)
    (p : Patient) (u : PatientUpdate) :
    (newStatusChanges i1 i2 i3 i4 now p u).filter
        (fun c => c.changeType == ChangeType.triage) = triageChangeOf i2 now p u := by
  unfold newStatusChanges
  rw [List.filter_append, List.filter_append, List.filter_append,
    triageChangeOf_filter_self, statusChangeOf_filter_ne _ _ _ _ _ (by decide),
    notesChangeOf_filter_ne _ _ _ _ _ (by decide),
    treatmentChangeOf_filter_ne _ _ _ _ _ (by decide),
    List.append_nil, List.append_nil, List.nil_append]

theorem newChanges_filter_notes (i1 i2 i3 i4 : String) (now : Nat)
    (p : Patient) (u : PatientUpdate) :
    (newStatusChanges i1 i2 i3 i4 now p u).filter
        (fun c => c.changeType == ChangeType.notes) = notesChangeOf i3 now p u := by
  unfold newStatusChanges
  rw [List.filter_append, List.filter_append, List.filter_append,
    notesChangeOf_filter_self, statusChangeOf_filter_ne _ _ _ _ _ (by decide),
    triageChangeOf_filter_ne _ _ _ _ _ (by decide),
    treatmentChangeOf_filter_ne _ _ _ _ _ (by decide),
    List.append_nil, List.nil_append, List.nil_append]

theorem newChanges_filter_treatment (i1 i2 i3 i4 : String) (now : Nat)
    (p : Patient) (u : PatientUpdate) :
    (newStatusChanges i1 i2 i3 i4 now p u).filter
        (fun c => c.changeType == ChangeType.treatment) = treatmentChangeOf i4 now p u := by
  unfold newStatusChanges
  rw [List.filter_append, List.filter_append, List.filter_append,
    treatmentChangeOf_filter_self, statusChangeOf_filter_ne _ _ _ _ _ (by decide),
    triageChangeOf_filter_ne _ _ _ _ _ (by decide),
    notesChangeOf_filter_ne _ _ _ _ _ (by decide),
    List.nil_append, List.nil_append, List.nil_append]

theorem mem_statusChangeOf (i : String) (now : Nat) (p : Patient)
    (u : PatientUpdate) (c : StatusChange) (h : c ∈ statusChangeOf i now p u) :
    c.timestamp = now ∧ c.changeType = ChangeType.status := by
  unfold statusChangeOf at h
  rcases hu : u.status with _ | s <;> simp only [hu] at h
  · cases h
  · by_cases hc : s ≠ p.status
    · rw [if_pos hc] at h
      rcases List.mem_singleton.mp h with rfl
      exact ⟨rfl, rfl⟩
    · rw [if_neg hc] at h
      cases h

theorem mem_triageChangeOf (i : String) (now : Nat) (p : Patient)
    (u : PatientUpdate) (c : StatusChange) (h : c ∈ triageChangeOf i now p u) :
    c.timestamp = now ∧ c.changeType = ChangeType.triage := by
  unfold triageChangeOf at h
  rcases hu : u.triageLevel with _ | t <;> simp only [hu] at h
  · cases h
  · by_cases hc : t ≠ p.triageLevel
    · rw [if_pos hc] at h
      rcases List.mem_singleton.mp h with rfl
      exact ⟨rfl, rfl⟩
    · rw [if_neg hc] at h
      cases h

theorem mem_notesChangeOf (i : String) (now : Nat) (p : Patient)
    (u : PatientUpdate) (c : StatusChange) (h : c ∈ notesChangeOf i now p u) :
    c.timestamp = now ∧ c.changeType = ChangeType.notes := by
  unfold notesChangeOf at h
  rcases hu : u.notes with _ | n <;> simp only [hu] at h
  · cases h
  · by_cases hc : n ≠ "" ∧ n ≠ p.notes
    · rw [if_pos hc] at h
      rcases List.mem_singleton.mp h with rfl
      exact ⟨rfl, rfl⟩
    · rw [if_neg hc] at h
      cases h

theorem mem_treatmentChangeOf (i : String) (now : Nat) (p : Patient)
    (u : PatientUpdate) (c : StatusChange) (h : c ∈ treatmentChangeOf i now p u) :
    c.timestamp = now ∧ c.changeType = ChangeType.treatment := by
  unfold treatmentChangeOf at h
  rcases hu : u.treatmentPlan with _ | tp <;> simp only [hu] at h
  · cases h
  · by_cases hc : tp ≠ "" ∧ some tp ≠ p.treatmentPlan
    · rw [if_pos hc] at h
      rcases List.mem_singleton.mp h with rfl
      exact ⟨rfl, rfl⟩
    · rw [if_neg hc] at h
      cases h

/-- C1 counterexample: the stored `notes` is `"old"`, the update
carries `notes: ""` — present and different — yet the mutation tracker
synthesizes no StatusChange at all, because the source guards each
tracked field with JavaScript truthiness (`updates.notes && ...`) and
the empty string is falsy. -/
theorem C1_counterexample_empty_notes_untracked :
    notesClearUpdate.notes = some "" ∧ notesClearPatient.notes = "old" ∧
    newStatusChanges "a" "b" "c" "d" 5 notesClearPatient notesClearUpdate = [] ∧
    trackStatusChanges "a" "b" "c" "d" 5 notesClearPatient notesClearUpdate = [] :=
  ⟨rfl, rfl, rfl, rfl⟩

/-- C1 amended: per `update`, for each of the four tracked fields whose
proposed value is present, truthy (non-empty — the source guards with
JavaScript truthiness, so an empty-string `notes`/`treatmentPlan`
update is never tracked) and different from the stored value, exactly
one StatusChange is synthesized with the mapped tag, the prior value
(placeholder substituted when the prior value is empty or absent), the
proposed value, and `isHighlighted` true except for notes; entries
share the tracker's timestamp; no entry is produced for any other
field. -/
theorem C1_tracked_field_audit (i1 i2 i3 i4 : String) (now : Nat)
    (p : Patient) (u : PatientUpdate) :
    (newStatusChanges i1 i2 i3 i4 now p u =
      newStatusChanges i1 i2 i3 i4 now p
        { status := u.status, triageLevel := u.triageLevel,
          notes := u.notes, treatmentPlan := u.treatmentPlan }) ∧
    (∀ c ∈ newStatusChanges i1 i2 i3 i4 now p u,
      c.timestamp = now ∧ c.changeType ≠ ChangeType.vitals) ∧
    (∀ s, u.status = some s → s ≠ p.status →
      (newStatusChanges i1 i2 i3 i4 now p u).filter
          (fun c => c.changeType == ChangeType.status) =
        [{ id := i1, patientId := p.id, timestamp := now,
           changeType := .status,
           previousValue := strOr p.status.toStr "Unknown",
           newValue := s.toStr, staffName := none, isHighlighted := true }]) ∧
    (u.status = none ∨ u.status = some p.status →
      (newStatusChanges i1 i2 i3 i4 now p u).filter
          (fun c => c.changeType == ChangeType.status) = []) ∧
    (∀ t, u.triageLevel = some t → t ≠ p.triageLevel →
      (newStatusChanges i1 i2 i3 i4 now p u).filter
          (fun c => c.changeType == ChangeType.triage) =
        [{ id := i2, patientId := p.id, timestamp := now,
           changeType := .triage,
           previousValue := p.triageLevel.toStr,
           newValue := t.toStr, staffName := none, isHighlighted := true }]) ∧
    (u.triageLevel = none ∨ u.triageLevel = some p.triageLevel →
      (newStatusChanges i1 i2 i3 i4 now p u).filter
          (fun c => c.changeType == ChangeType.triage) = []) ∧
    (∀ n, u.notes = some n → n ≠ "" → n ≠ p.notes →
      (newStatusChanges i1 i2 i3 i4 now p u).filter
          (fun c => c.changeType == ChangeType.notes) =
        [{ id := i3, patientId := p.id, timestamp := now,
           changeType := .notes,
           previousValue := strOr p.notes "No notes",
           newValue := n, staffName := none, isHighlighted := false }]) ∧
    (u.notes = none ∨ u.notes = some "" ∨ u.notes = some p.notes →
      (newStatusChanges i1 i2 i3 i4 now p u).filter
          (fun c => c.changeType == ChangeType.notes) = []) ∧
    (∀ tp, u.treatmentPlan = some tp → tp ≠ "" → some tp ≠ p.treatmentPlan →
      (newStatusChanges i1 i2 i3 i4 now p u).filter
          (fun c => c.changeType == ChangeType.treatment) =
        [{ id := i4, patientId := p.id, timestamp := now,
           changeType := .treatment,
           previousValue := optStrOr p.treatmentPlan "No treatment plan",
           newValue := tp, staffName := none, isHighlighted := true }]) ∧
    (u.treatmentPlan = none ∨ u.treatmentPlan = some "" ∨
        u.treatmentPlan = p.treatmentPlan →
      (newStatusChanges i1 i2 i3 i4 now p u).filter
          (fun c => c.changeType == ChangeType.treatment) = []) := by
  refine ⟨rfl, ?_, ?_, ?_, ?_, ?_, ?_, ?_, ?_, ?_⟩
  · intro c hc
    unfold newStatusChanges at hc
    rcases List.mem_append.mp hc with hc | h
    · rcases List.mem_append.mp hc with hc | h
      · rcases List.mem_append.mp hc with h | h
        · obtain ⟨ht, hty⟩ := mem_statusChangeOf i1 now p u c h
          exact ⟨ht, by rw [hty]; decide⟩
        · obtain ⟨ht, hty⟩ := mem_triageChangeOf i2 now p u c h
          exact ⟨ht, by rw [hty]; decide⟩
      · obtain ⟨ht, hty⟩ := mem_notesChangeOf i3 now p u c h
        exact ⟨ht, by rw [hty]; decide⟩
    · obtain ⟨ht, hty⟩ := mem_treatmentChangeOf i4 now p u c h
      exact ⟨ht, by rw [hty]; decide⟩
  · intro s hs hne
    rw [newChanges_filter_status]
    unfold statusChangeOf
    simp only [hs]
    rw [if_pos hne]
  · intro h
    rw [newChanges_filter_status]
    unfold statusChangeOf
    rcases h with h | h <;> simp only [h]
    rw [if_neg (fun hne => hne rfl)]
  · intro t ht hne
    rw [newChanges_filter_triage]
    unfold triageChangeOf
    simp only [ht]
    rw [if_pos hne]
  · intro h
    rw [newChanges_filter_triage]
    unfold triageChangeOf
    rcases h with h | h <;> simp only [h]
    rw [if_neg (fun hne => hne rfl)]
  · intro n hn h1 h2
    rw [newChanges_filter_notes]
    unfold notesChangeOf
    simp only [hn]
    rw [if_pos ⟨h1, h2⟩]
  · intro h
    rw [newChanges_filter_notes]
    unfold notesChangeOf
    rcases h with h | h | h <;> simp only [h]
    · rw [if_neg (fun hc => hc.1 rfl)]
    · rw [if_neg (fun hc => hc.2 rfl)]
  · intro tp htp h1 h2
    rw [newChanges_filter_treatment]
    unfold treatmentChangeOf
    simp only [htp]
    rw [if_pos ⟨h1, h2⟩]
  · intro h
    rw [newChanges_filter_treatment]
    unfold treatmentChangeOf
    rcases h with h | h | h
    · simp only [h]
    · simp only [h]
      rw [if_neg (fun hc => hc.1 rfl)]
    · rcases hp : p.treatmentPlan with _ | tpe
      · simp only [h, hp]
      · simp only [h, hp]
        rw [if_neg (fun hc => hc.2 rfl)]

/-- C1 witness: a status flip on a freshly created record synthesizes
exactly the one highlighted status entry. -/
theorem C1_tracked_field_audit_witness :
    (({ status := some PatientStatus.InTreatment } : PatientUpdate).status =
      some PatientStatus.InTreatment) ∧
    PatientStatus.InTreatment ≠ basePatient.status ∧
    (newStatusChanges "a" "b" "c" "d" 9 basePatient
        { status := some PatientStatus.InTreatment }).filter
        (fun c => c.changeType == ChangeType.status) =
      [{ id := "a", patientId := basePatient.id, timestamp := 9,
         changeType := .status,
         previousValue := strOr basePatient.status.toStr "Unknown",
         newValue := PatientStatus.InTreatment.toStr, staffName := none,
         isHighlighted := true }] :=
  ⟨rfl, by decide,
   (C1_tracked_field_audit "a" "b" "c" "d" 9 basePatient
      { status := some PatientStatus.InTreatment }).2.2.1
     PatientStatus.InTreatment rfl (by decide)⟩

/-- C5: after every update the persisted `statusChanges` array is
sorted descending by timestamp and bounded by 50 — its length is the
minimum of 50 and the combined count of prior plus newly synthesized
entries, so exactly the 50 most-recently-timestamped survive; in the
concrete run of 60 sequential updates each producing one change, the
array holds exactly the timestamps 60 down to 11. -/
theorem C5_retention_bound :
    (∀ (i1 i2 i3 i4 : String) (now : Nat) (p : Patient) (u : PatientUpdate),
      (trackStatusChanges i1 i2 i3 i4 now p u).Pairwise
        (fun a b => b.timestamp ≤ a.timestamp) ∧
      (trackStatusChanges i1 i2 i3 i4 now p u).length ≤ 50 ∧
      (trackStatusChanges i1 i2 i3 i4 now p u).length =
        min ((p.statusChanges.getD []).length +
          (newStatusChanges i1 i2 i3 i4 now p u).length) 50) ∧
    ((getById (retentionStore 60) "p1").map
        (fun p => (p.statusChanges.getD []).map (fun c => c.timestamp)) =
      some (List.range' 11 50).reverse) ∧
    ((getById (retentionStore 60) "p1").map
        (fun p => (p.statusChanges.getD []).length) = some 50) := by
  refine ⟨?_, by decide, by decide⟩
  intro i1 i2 i3 i4 now p u
  refine ⟨?_, ?_, ?_⟩
  · have hs := pairwise_jsSort changeDesc changeDesc_trans changeDesc_total
      ((p.statusChanges.getD []) ++ newStatusChanges i1 i2 i3 i4 now p u)
    have hsub : (trackStatusChanges i1 i2 i3 i4 now p u).Sublist
        (jsSort changeDesc ((p.statusChanges.getD []) ++
          newStatusChanges i1 i2 i3 i4 now p u)) := by
      unfold trackStatusChanges
      exact List.take_sublist _ _
    refine (List.Pairwise.sublist hsub hs).imp ?_
    intro a b h
    simpa [changeDesc] using h
  · unfold trackStatusChanges
    rw [List.length_take]
    omega
  · unfold trackStatusChanges
    rw [List.length_take, length_jsSort, List.length_append]
    omega

/-- C6: `addHandoverNote` fails with not-found when the record is
absent; otherwise it synthesizes the note's `id` and `timestamp`,
prepends it to the stored list truncated to the 20 most recent
(newest first), refreshes `lastUpdated`, and leaves `statusChanges`
(and every clinical field) untouched — it bypasses the mutation
tracker; after 25 sequential notes exactly the 20 most recent remain,
newest-first. -/
theorem C6_handover_ledger (nid : String) (n1 n2 : Nat) (st : Store)
    (pid : String) (inp : HandoverNoteInput) :
    (getById st pid = none →
      addHandoverNote nid n1 n2 st pid inp =
        .error ("Failed to add handover note: Patient with ID " ++ pid ++ " not found")) ∧
    (∀ p, getById st pid = some p →
      ∃ st', addHandoverNote nid n1 n2 st pid inp = .ok st' ∧
        ∃ p', getById st' pid = some p' ∧
          p'.handoverNotes = some
            (({ staffName := inp.staffName, shiftType := inp.shiftType,
                summary := inp.summary, criticalUpdates := inp.criticalUpdates,
                keyObservations := inp.keyObservations,
                actionItems := inp.actionItems, priority := inp.priority,
                id := nid, patientId := pid, timestamp := n1 } ::
              p.handoverNotes.getD []).take 20) ∧
          p'.lastUpdated = n2 ∧ p'.statusChanges = p.statusChanges ∧
          p'.id = p.id ∧ p'.name = p.name ∧ p'.notes = p.notes ∧
          p'.status = p.status ∧ p'.triageLevel = p.triageLevel ∧
          p'.timestamp = p.timestamp) ∧
    ((getById (handoverStore 25) "p1").map
        (fun p => (p.handoverNotes.getD []).map (fun n => n.timestamp)) =
      some (List.range' 6 20).reverse) := by
  refine ⟨?_, ?_, by decide⟩
  · intro h
    simp only [addHandoverNote, h]
  · intro p h
    simp only [addHandoverNote, h]
    refine ⟨_, rfl, ?_⟩
    rw [getById_dbUpdate st pid _ rfl, h]
    refine ⟨_, rfl, ?_⟩
    simp [applyUpdate, Option.orElse]

/-- C6 witness: appending one handover note to a one-record store. -/
theorem C6_handover_ledger_witness :
    getById ⟨[basePatient]⟩ "p1" = some basePatient ∧
    (∃ st', addHandoverNote "h1" 3 4 ⟨[basePatient]⟩ "p1" handoverInput = .ok st' ∧
      ∃ p', getById st' "p1" = some p' ∧
        p'.handoverNotes = some
          (({ staffName := handoverInput.staffName,
              shiftType := handoverInput.shiftType,
              summary := handoverInput.summary,
              criticalUpdates := handoverInput.criticalUpdates,
              keyObservations := handoverInput.keyObservations,
              actionItems := handoverInput.actionItems,
              priority := handoverInput.priority,
              id := "h1", patientId := "p1", timestamp := 3 } ::
            basePatient.handoverNotes.getD []).take 20) ∧
        p'.lastUpdated = 4 ∧ p'.statusChanges = basePatient.statusChanges ∧
        p'.id = basePatient.id ∧ p'.name = basePatient.name ∧
        p'.notes = basePatient.notes ∧ p'.status = basePatient.status ∧
        p'.triageLevel = basePatient.triageLevel ∧
        p'.timestamp = basePatient.timestamp) :=
  ⟨rfl,
   (C6_handover_ledger "h1" 3 4 ⟨[basePatient]⟩ "p1" handoverInput).2.1
     basePatient rfl⟩

/-- C9: the CSV export returns the literal sentinel on an empty store;
otherwise a fixed header row followed by one comma-joined row per
record in `getPatients` order, with symptoms `;`-joined, ISO-8601
timestamps, and cells containing a comma, double quote or line break
wrapped in doubled double quotes — `O"Brien, J.` exports as the cell
`"O""Brien, J."`. -/
theorem C9_csv_export (st : Store) (v : String) :
    (getPatients st = [] → exportToCSV st = "No patient data available for export") ∧
    (getPatients st ≠ [] → exportToCSV st =
      String.intercalate "\n"
        ("Patient ID,Name,Age,Symptoms,Condition,Triage Level,Timestamp" ::
          (getPatients st).map patientToCSVRow)) ∧
    (∀ p : Patient, patientToCSVRow p = String.intercalate ","
      [escapeCSVValue p.id, escapeCSVValue p.name, toString p.age,
       escapeCSVValue (String.intercalate ";" p.symptoms),
       escapeCSVValue p.condition, escapeCSVValue p.triageLevel.toStr,
       escapeCSVValue (toISOString p.timestamp)]) ∧
    (containsChar v ',' = false → containsChar v '\"' = false →
      containsChar v '\n' = false → containsChar v '\r' = false →
      escapeCSVValue v = v) ∧
    escapeCSVValue "O\"Brien, J." = "\"O\"\"Brien, J.\"" ∧
    exportToCSV ⟨[]⟩ = "No patient data available for export" ∧
    exportToCSV exportStore =
      "Patient ID,Name,Age,Symptoms,Condition,Triage Level,Timestamp\n" ++
      "p1,Alice,30,fever,stable,Stable,2024-01-15T14:30:46.000Z\n" ++
      "p9,\"O\"\"Brien, J.\",30,fever;vomiting,stable,Urgent,2024-01-15T14:30:45.000Z" := by
  refine ⟨?_, ?_, fun p => rfl, ?_, by decide, rfl, by decide⟩
  · intro h
    unfold exportToCSV
    rw [if_pos (by simp [h])]
  · intro h
    unfold exportToCSV
    rw [if_neg (by simpa [List.length_eq_zero] using h)]
    rfl
  · intro h1 h2 h3 h4
    unfold escapeCSVValue
    rw [if_neg (by simp [h1, h2, h3, h4])]

/-- C9 witness: the nonempty-store row layout applied to the concrete
two-record store. -/
theorem C9_csv_export_witness :
    getPatients exportStore ≠ [] ∧
    exportToCSV exportStore =
      String.intercalate "\n"
        ("Patient ID,Name,Age,Symptoms,Condition,Triage Level,Timestamp" ::
          (getPatients exportStore).map patientToCSVRow) :=
  ⟨by decide, (C9_csv_export exportStore "x").2.1 (by decide)⟩

end GazaCareHub
